import Mathlib

/-!
Verification of the MetaGPT environment core (`metagpt/environment/base_env.py`):
the message bus (`Environment.publish_message`), sender resolver
(`_find_sender_role` / `_format_sender` / `_format_recipients`), round scheduler
(`Environment.run`), and the capability dispatch surface
(`ExtEnv.read_from_api` / `ExtEnv.write_thru_api`).

Helper code living outside the core file (`metagpt.utils.common.is_send_to`,
`Memory.add`, `BaseRole.put_message` / `run` / `is_idle`, the
`EnvAPIRegistry.get` lookup) is modelled from the specification, as flagged in
each doc comment.
-/

/-- Modelled from the spec: the `ALL` sentinel address meaning "all currently
registered addresses" (`MESSAGE_ROUTE_TO_ALL`, defined outside the core file).
Its concrete value is irrelevant; only equality with itself is used. -/
def MESSAGE_ROUTE_TO_ALL : String := "<all>"

/-- A message value object: `content`, `sent_from` (free-form origin string,
possibly empty), and `send_to` (the set of target addresses, possibly
containing the `ALL` sentinel). Mirrors `metagpt.schema.Message`'s routing
fields. -/
structure Message where
  content : String
  sent_from : String
  send_to : List String
deriving DecidableEq, Repr

/-- A registered agent together with its `member_addrs` entry. `name` and
`className` mirror `role.name` and `role.__class__.__name__`; `canonical` is
the canonical string representation used by sender-resolution strategy 2
(modelled from the spec, since `any_to_str` is outside the core file);
`addrs` is the agent's address set from `Environment.member_addrs`;
`inbox` and `is_idle` are the agent-side state the environment reads. -/
structure Role where
  name : String
  className : String
  canonical : String
  addrs : List String
  is_idle : Bool
  inbox : List Message
deriving DecidableEq, Repr

/-- Modelled from the spec: `role.put_message(message)` enqueues the message
into that agent's inbox (at the end, preserving arrival order). -/
def Role.put_message (r : Role) (m : Message) : Role :=
  { r with inbox := r.inbox ++ [m] }

/-- The environment state the claims are about: the registered agents (each
carrying its `member_addrs` address set) and the debug History. -/
structure Environment where
  roles : List Role
  history : List Message
deriving DecidableEq, Repr

/-- Modelled from the spec: `match(message, addresses)` / `is_send_to` is a pure
predicate, true iff the message's target intersects `addresses` or the message
targets the `ALL` sentinel (`metagpt.utils.common.is_send_to`, outside the
core file). -/
def is_send_to (m : Message) (addrs : List String) : Bool :=
  m.send_to.contains MESSAGE_ROUTE_TO_ALL || addrs.any (fun a => m.send_to.contains a)

/-- Modelled from the spec: `Memory.add` appends the published message to the
debug History, an ordered append-only sequence (`metagpt.memory.Memory`,
outside the core file). -/
def Memory.add (history : List Message) (m : Message) : List Message :=
  history ++ [m]

/-- Character-level worker for `lastSegment`: keep the characters seen since
the most recent dot. -/
def lastSegmentChars : List Char → List Char → List Char
  | [], acc => acc.reverse
  | c :: cs, acc => if c = '.' then lastSegmentChars cs [] else lastSegmentChars cs (c :: acc)

/-- `sent_from.split(".")[-1]`: the last dot-separated segment of a string (the
whole string when it has no dot). -/
def lastSegment (s : String) : String :=
  String.mk (lastSegmentChars s.data [])

/-- `"." in sent_from`: whether the string contains a dot. -/
def containsDot (s : String) : Bool :=
  s.data.contains '.'

/-- `Environment._find_sender_role`: resolve `sent_from` to a registered role by
three strategies in order: exact name match, canonical string representation
match, then (only when `sent_from` is dotted) class-name match on the last
segment. -/
def Environment.find_sender_role (env : Environment) (sent_from : String) : Option Role :=
  if sent_from = "" then none
  else
    match env.roles.find? (fun r => r.name == sent_from) with
    | some r => some r
    | none =>
      match env.roles.find? (fun r => r.canonical == sent_from) with
      | some r => some r
      | none =>
        if containsDot sent_from then
          env.roles.find? (fun r => r.className == lastSegment sent_from)
        else none

/-- `Environment._format_sender`: format the resolved sender as `Name(Class)`;
empty `sent_from` gives `"Unknown"`; an unresolved dotted `sent_from` gives
`"Unknown(lastSegment)"`; an unresolved undotted `sent_from` is returned raw. -/
def Environment.format_sender (env : Environment) (m : Message) : String :=
  if m.sent_from = "" then "Unknown"
  else
    match env.find_sender_role m.sent_from with
    | some r => r.name ++ "(" ++ r.className ++ ")"
    | none =>
      if containsDot m.sent_from then "Unknown(" ++ lastSegment m.sent_from ++ ")"
      else m.sent_from

/-- `Environment._format_recipients`: every registered agent matched by
`is_send_to`, formatted as `Name(Class)`. -/
def Environment.format_recipients (env : Environment) (m : Message) : List String :=
  (env.roles.filter (fun r => is_send_to m r.addrs)).map
    (fun r => r.name ++ "(" ++ r.className ++ ")")

/-- The external log sink (`enhanced_logger.log_agent_message`), abstracted as a
fallible call receiving the formatted sender, recipients and content; an
`Except.error` models the sink raising an exception. -/
def Sink : Type :=
  String → List String → String → Except String Unit

/-- A sink that always succeeds. -/
def okSink : Sink := fun _ _ _ => Except.ok ()

/-- A sink that always raises. -/
def failSink : Sink := fun _ _ _ => Except.error "sink failure"

/-- The body of the `try:` block of `Environment._log_enhanced_message`:
resolve sender and recipients, then notify the sink. -/
def log_enhanced_body (sink : Sink) (env : Environment) (m : Message) : Except String Unit :=
  sink (env.format_sender m) (env.format_recipients m) m.content

/-- `Environment._log_enhanced_message`: run the logging body and catch every
exception (the source's `except Exception: logger.debug(...)`), so the call
always returns without raising. -/
def Environment.log_enhanced_message (sink : Sink) (env : Environment) (m : Message) : Unit :=
  match log_enhanced_body sink env m with
  | Except.ok u => u
  | Except.error _ => ()

/-- Whether at least one registered agent matches the message: the value the
`found` flag holds after the delivery loop of `publish_message`. -/
def Environment.anyRecipient (env : Environment) (m : Message) : Bool :=
  env.roles.any (fun r => is_send_to m r.addrs)

/-- `Environment.publish_message(message, peekable=True)`: notify the enhanced
logger (errors swallowed inside `log_enhanced_message`), put the message into
the inbox of every agent whose `member_addrs` entry matches, record the
`found` flag (used only for the "Message no recipients" warning), append the
message to the debug History, and return `True`. The `peekable` parameter is
accepted and never read, as in the source. -/
def Environment.publish_message (sink : Sink) (env : Environment) (m : Message)
    (peekable : Bool) : Bool × Environment :=
  let _logged := env.log_enhanced_message sink m
  let newRoles := env.roles.map (fun r => if is_send_to m r.addrs then r.put_message m else r)
  let _found := env.anyRecipient m
  (true, { env with roles := newRoles, history := Memory.add env.history m })

/-- Modelled from the spec: an agent's `run` operation (`BaseRole.run`, outside
the core file), abstracted as a transformation of the agent's own state; the
round scheduler is verified for every such transformation. -/
def RoleStep : Type :=
  Role → Role

/-- One round of `Environment.run`: collect the futures of exactly the non-idle
agents, await them all (each non-idle agent's state is replaced by the result
of its `run`; idle agents are untouched), and report the names dispatched. -/
def Environment.run_round (step : RoleStep) (env : Environment) : Environment × List String :=
  let futures := env.roles.filter (fun r => !r.is_idle)
  let newRoles := env.roles.map (fun r => if r.is_idle then r else step r)
  ({ env with roles := newRoles }, futures.map (fun r => r.name))

/-- The environment state after one completed round. -/
def Environment.roundState (step : RoleStep) (env : Environment) : Environment :=
  (env.run_round step).1

/-- The names of the currently non-idle agents, in registration order. -/
def Environment.nonIdleNames (env : Environment) : List String :=
  (env.roles.filter (fun r => !r.is_idle)).map (fun r => r.name)

/-- `Environment.run(k)`: `k` sequential rounds, each completing before the next
starts; also returns the per-round trace of dispatched agent names. -/
def Environment.run (step : RoleStep) (k : Nat) (env : Environment) :
    Environment × List (List String) :=
  match k with
  | 0 => (env, [])
  | Nat.succ k1 =>
    let p := env.run_round step
    let q := Environment.run step k1 p.1
    (q.1, p.2 :: q.2)

/-- Errors surfaced by the capability dispatch surface: the registry's
`UnknownCapabilityError` (a `KeyError` in the source), the `ValueError` of
`_check_api_exist`, and arbitrary failures raised by a capability callable. -/
inductive EnvError where
  | unknownCapability (name : String)
  | valueError (msg : String)
  | apiFailure (msg : String)
deriving DecidableEq, Repr

/-- The value type capability callables consume and produce (opaque to the
dispatch logic; any inhabited type with decidable equality would do). -/
def Value : Type := Nat

instance : DecidableEq Value := fun a b => instDecidableEqNat a b

instance : OfNat Value n := ⟨(n : Nat)⟩

/-- A capability callable: bound to the environment, taking positional `args`
and keyword `kwargs`, either returning a value or raising. -/
def ApiFunc : Type :=
  Environment → List Value → List (String × Value) → Except EnvError Value

/-- A capability registry (`ReadAPIRegistry` / `WriteAPIRegistry`): a mapping
from operation name to its callable (the `"func"` entry of the stored
schema). -/
def ApiRegistry : Type :=
  List (String × ApiFunc)

/-- Modelled from the spec: `EnvAPIRegistry.get` / `resolve(name, kind)` returns
the stored entry or fails with `UnknownCapabilityError` for a missing name
(the registry class lives outside the core file). -/
def registryGet (reg : ApiRegistry) (name : String) : Except EnvError ApiFunc :=
  match reg.lookup name with
  | some f => Except.ok f
  | none => Except.error (EnvError.unknownCapability name)

/-- The structured call descriptor `EnvAPIAbstract` with fields
`{api_name, args, kwargs}` (modelled from the spec; the class lives outside
the core file). -/
structure EnvAPIAbstract where
  api_name : String
  args : List Value
  kwargs : List (String × Value)

/-- `ExtEnv._check_api_exist`: raise `ValueError` when the looked-up api is
absent/falsy. -/
def ExtEnv.check_api_exist (rw_api : Option ApiFunc) : Except EnvError Unit :=
  match rw_api with
  | none => Except.error (EnvError.valueError "api not exists")
  | some _ => Except.ok ()

/-- The argument shapes `read_from_api` accepts:
`Union[str, EnvAPIAbstract]`. -/
inductive ReadAction where
  | opName (s : String)
  | api (d : EnvAPIAbstract)

/-- The argument shapes `write_thru_api` accepts:
`Union[str, Message, EnvAPIAbstract, list[EnvAPIAbstract]]`. -/
inductive WriteAction where
  | opName (s : String)
  | msg (m : Message)
  | api (d : EnvAPIAbstract)
  | apiList (ds : List EnvAPIAbstract)

/-- `ExtEnv.read_from_api`: a plain name invokes the read capability with no
arguments; a descriptor invokes it with the descriptor's `args`/`kwargs`.
The registry lookup raises for a missing name; the callable's errors
propagate unchanged. -/
def ExtEnv.read_from_api (reg : ApiRegistry) (env : Environment) (env_action : ReadAction) :
    Except EnvError Value :=
  match env_action with
  | ReadAction.opName s => do
    let f ← registryGet reg s
    let _ ← ExtEnv.check_api_exist (some f)
    f env [] []
  | ReadAction.api d => do
    let f ← registryGet reg d.api_name
    let _ ← ExtEnv.check_api_exist (some f)
    f env d.args d.kwargs

/-- `ExtEnv.write_thru_api`: `res` starts as `None`; a raw `Message` is routed
via `publish_message`; an `EnvAPIAbstract` descriptor dispatches the named
write capability and `res` becomes its result. The source body has no branch
for a plain string or a list of descriptors, so those fall through and return
`None` with the environment untouched. -/
def ExtEnv.write_thru_api (wreg : ApiRegistry) (sink : Sink) (env : Environment)
    (env_action : WriteAction) : Except EnvError (Option Value × Environment) :=
  match env_action with
  | WriteAction.msg m =>
    let r := Environment.publish_message sink env m true
    Except.ok (none, r.2)
  | WriteAction.api d => do
    let f ← registryGet wreg d.api_name
    let _ ← ExtEnv.check_api_exist (some f)
    let v ← f env d.args d.kwargs
    pure (some v, env)
  | WriteAction.opName _ => Except.ok (none, env)
  | WriteAction.apiList _ => Except.ok (none, env)

/-! Concrete fixtures used by witnesses and counterexamples. -/

/-- An environment with no registered agents. -/
def envEmpty : Environment := { roles := [], history := [] }

/-- An agent named `Alice` of type `Coder`, subscribed to `addr1`, not idle. -/
def roleAlice : Role :=
  { name := "Alice", className := "Coder", canonical := "app.Coder",
    addrs := ["addr1"], is_idle := false, inbox := [] }

/-- An environment holding just `roleAlice`. -/
def envAlice : Environment := { roles := [roleAlice], history := [] }

/-- A message targeting `addr1` with an empty origin. -/
def msgHello : Message := { content := "hello", sent_from := "", send_to := ["addr1"] }

/-- A broadcast message targeting the `ALL` sentinel. -/
def msgAll : Message := { content := "broadcast", sent_from := "", send_to := [MESSAGE_ROUTE_TO_ALL] }

/-- A message whose dotted origin matches no registered agent. -/
def msgDotted : Message := { content := "dotted", sent_from := "x.Y", send_to := ["addr1"] }

/-- Shared helper: the agent list after `publish_message`, position by position:
each matching agent has the message enqueued, each other agent is unchanged. -/
theorem publish_roles_getElem (sink : Sink) (env : Environment) (m : Message) (p : Bool)
    (i : Nat) :
    (Environment.publish_message sink env m p).2.roles[i]? =
      (env.roles[i]?).map (fun r => if is_send_to m r.addrs then r.put_message m else r) := by
  simp [Environment.publish_message, List.getElem?_map]

/-- C10: the return value and the resulting environment state of
`publish_message` are identical for every value of `peekable`: the parameter
has no observable effect. -/
theorem publish_message_peekable_irrelevant (sink : Sink) (env : Environment) (m : Message)
    (p q : Bool) :
    Environment.publish_message sink env m p = Environment.publish_message sink env m q := rfl

/-- C7: the publisher-visible outcome of `publish_message` (return value,
inboxes, History) is identical for every behaviour of the enhanced-logging
path, and a failure raised inside that path is swallowed by
`log_enhanced_message`, never propagated. -/
theorem publish_message_sink_exception_safe (sinkA sinkB : Sink) (env : Environment)
    (m : Message) (p : Bool) (e : String) :
    Environment.publish_message sinkA env m p = Environment.publish_message sinkB env m p
    ∧ (log_enhanced_body sinkA env m = Except.error e →
        Environment.log_enhanced_message sinkA env m = ()) := by
  exact ⟨rfl, fun _ => rfl⟩

/-- Witness for C7 at a sink that always raises. -/
theorem publish_message_sink_exception_safe_witness :
    Environment.log_enhanced_message failSink envEmpty msgHello = () :=
  (publish_message_sink_exception_safe failSink okSink envEmpty msgHello true
    "sink failure").2 rfl

/-- C2 (amended): `publish_message` returns `True` in every case — the `found`
flag only guards the "no recipients" warning — and appends the message to the
debug History exactly once. -/
theorem publish_message_always_true_and_history (sink : Sink) (env : Environment)
    (m : Message) (p : Bool) :
    (Environment.publish_message sink env m p).1 = true
    ∧ (Environment.publish_message sink env m p).2.history = env.history ++ [m] :=
  ⟨rfl, rfl⟩

/-- C2 counterexample: with no registered agents nothing matches, yet
`publish_message` still returns `True`, so the return value is not "whether at
least one recipient matched". -/
theorem publish_message_return_value_counterexample :
    envEmpty.anyRecipient msgHello = false
    ∧ (Environment.publish_message okSink envEmpty msgHello true).1 = true
    ∧ (Environment.publish_message okSink envEmpty msgHello true).1
        ≠ envEmpty.anyRecipient msgHello := by
  refine ⟨rfl, rfl, ?_⟩
  decide

/-- C1: `publish_message` keeps the agent list intact; an agent whose address
set matches the message gets exactly one copy appended to its inbox, a
non-matching agent's inbox is untouched; and across two consecutive publishes
a common recipient's inbox holds the messages in publish order. -/
theorem publish_message_delivery (sink : Sink) (env : Environment) (m m2 : Message)
    (p p2 : Bool) (i : Nat) (r : Role) (h : env.roles[i]? = some r) :
    ((Environment.publish_message sink env m p).2.roles.length = env.roles.length)
    ∧ (is_send_to m r.addrs = true →
        (Environment.publish_message sink env m p).2.roles[i]? = some (r.put_message m))
    ∧ (is_send_to m r.addrs = false →
        (Environment.publish_message sink env m p).2.roles[i]? = some r)
    ∧ (is_send_to m r.addrs = true → is_send_to m2 r.addrs = true →
        (Environment.publish_message sink
            (Environment.publish_message sink env m p).2 m2 p2).2.roles[i]?
          = some ((r.put_message m).put_message m2))
    ∧ (((r.put_message m).put_message m2).inbox = r.inbox ++ [m, m2]) := by
  refine ⟨?_, ?_, ?_, ?_, ?_⟩
  · simp [Environment.publish_message]
  · intro hm
    rw [publish_roles_getElem, h]
    simp [hm]
  · intro hm
    rw [publish_roles_getElem, h]
    simp [hm]
  · intro hm hm2
    rw [publish_roles_getElem, publish_roles_getElem, h]
    simp [hm, Role.put_message, hm2]
  · simp [Role.put_message]

/-- Witness for C1 at a one-agent environment and a matching message. -/
theorem publish_message_delivery_witness :
    (Environment.publish_message okSink envAlice msgHello true).2.roles[0]?
      = some (roleAlice.put_message msgHello) :=
  (publish_message_delivery okSink envAlice msgHello msgHello true true 0 roleAlice
    rfl).2.1 (by decide)

/-- C3: a message targeting the `ALL` sentinel is delivered to every registered
agent (in particular every one with a non-empty address set), and the match
predicate is exactly "the target intersects the addresses, or the target
contains the `ALL` sentinel". -/
theorem publish_message_broadcast (sink : Sink) (env : Environment) (m : Message) (p : Bool)
    (i : Nat) (r : Role) (hall : m.send_to.contains MESSAGE_ROUTE_TO_ALL = true)
    (h : env.roles[i]? = some r) (hne : r.addrs ≠ []) :
    ((Environment.publish_message sink env m p).2.roles[i]? = some (r.put_message m))
    ∧ (∀ msg : Message, ∀ addrs : List String,
        is_send_to msg addrs = true ↔
          (MESSAGE_ROUTE_TO_ALL ∈ msg.send_to ∨ ∃ a ∈ addrs, a ∈ msg.send_to)) := by
  constructor
  · have hm : is_send_to m r.addrs = true := by
      simp only [is_send_to, Bool.or_eq_true]
      exact Or.inl hall
    rw [publish_roles_getElem, h]
    simp [hm]
  · intro msg addrs
    simp [is_send_to, List.any_eq_true]

/-- Witness for C3 at a one-agent environment and an `ALL`-targeted message. -/
theorem publish_message_broadcast_witness :
    (Environment.publish_message okSink envAlice msgAll true).2.roles[0]?
      = some (roleAlice.put_message msgAll) :=
  (publish_message_broadcast okSink envAlice msgAll true 0 roleAlice rfl rfl
    (by decide)).1

/-- C6 counterexample: `sent_from = "x.Y"` matches no strategy in `envAlice`,
yet `format_sender` returns `"Unknown(Y)"`, not the raw string `"x.Y"`. -/
theorem format_sender_counterexample :
    Environment.format_sender envAlice msgDotted = "Unknown(Y)"
    ∧ msgDotted.sent_from = "x.Y"
    ∧ "Unknown(Y)" ≠ "x.Y" := by
  refine ⟨?_, rfl, ?_⟩
  · rfl
  · decide

/-- C6 (amended): sender formatting applies the strategies in order — exact name
match, canonical-representation match, then (for a dotted `sent_from`)
class-name match on the last segment — formatting a resolved agent as
`Name(Type)`; an empty `sent_from` gives `"Unknown"`; when no strategy
matches, a dotted `sent_from` gives `"Unknown(lastSegment)"` and an undotted
one is returned raw. -/
theorem format_sender_spec (env : Environment) (m : Message) (r : Role) :
    (m.sent_from = "" → env.format_sender m = "Unknown")
    ∧ (m.sent_from ≠ "" →
        env.roles.find? (fun x => x.name == m.sent_from) = some r →
        env.format_sender m = r.name ++ "(" ++ r.className ++ ")")
    ∧ (m.sent_from ≠ "" →
        env.roles.find? (fun x => x.name == m.sent_from) = none →
        env.roles.find? (fun x => x.canonical == m.sent_from) = some r →
        env.format_sender m = r.name ++ "(" ++ r.className ++ ")")
    ∧ (m.sent_from ≠ "" →
        env.roles.find? (fun x => x.name == m.sent_from) = none →
        env.roles.find? (fun x => x.canonical == m.sent_from) = none →
        containsDot m.sent_from = true →
        env.roles.find? (fun x => x.className == lastSegment m.sent_from) = some r →
        env.format_sender m = r.name ++ "(" ++ r.className ++ ")")
    ∧ (m.sent_from ≠ "" →
        env.roles.find? (fun x => x.name == m.sent_from) = none →
        env.roles.find? (fun x => x.canonical == m.sent_from) = none →
        containsDot m.sent_from = true →
        env.roles.find? (fun x => x.className == lastSegment m.sent_from) = none →
        env.format_sender m = "Unknown(" ++ lastSegment m.sent_from ++ ")")
    ∧ (m.sent_from ≠ "" →
        env.roles.find? (fun x => x.name == m.sent_from) = none →
        env.roles.find? (fun x => x.canonical == m.sent_from) = none →
        containsDot m.sent_from = false →
        env.format_sender m = m.sent_from) := by
  refine ⟨?_, ?_, ?_, ?_, ?_, ?_⟩
  · intro h0
    simp [Environment.format_sender, h0]
  · intro h0 h1
    simp [Environment.format_sender, Environment.find_sender_role, h0, h1]
  · intro h0 h1 h2
    simp [Environment.format_sender, Environment.find_sender_role, h0, h1, h2]
  · intro h0 h1 h2 h3 h4
    simp [Environment.format_sender, Environment.find_sender_role, h0, h1, h2, h3, h4]
  · intro h0 h1 h2 h3 h4
    simp [Environment.format_sender, Environment.find_sender_role, h0, h1, h2, h3, h4]
  · intro h0 h1 h2 h3
    simp [Environment.format_sender, Environment.find_sender_role, h0, h1, h2, h3]

/-- Witness for C6 at `envAlice`: the exact-name strategy resolves `"Alice"` to
`"Alice(Coder)"`. -/
theorem format_sender_spec_witness :
    envAlice.format_sender
        { content := "hi", sent_from := "Alice", send_to := ["addr1"] }
      = "Alice" ++ "(" ++ "Coder" ++ ")" :=
  (format_sender_spec envAlice
      { content := "hi", sent_from := "Alice", send_to := ["addr1"] }
      roleAlice).2.1 (by decide) (by decide)

/-- Shared helper: the trace of `run` has one entry per round. -/
theorem run_trace_length (step : RoleStep) (k : Nat) (env : Environment) :
    (Environment.run step k env).2.length = k := by
  induction k generalizing env with
  | zero => rfl
  | succ n ih => simp [Environment.run, ih]

/-- Shared helper: the state after `run k` is `k` completed rounds, each
starting from the state the previous round finished in. -/
theorem run_state_iterate (step : RoleStep) (k : Nat) (env : Environment) :
    (Environment.run step k env).1 = (Environment.roundState step)^[k] env := by
  induction k generalizing env with
  | zero => rfl
  | succ n ih =>
    rw [Function.iterate_succ_apply]
    simpa [Environment.run, Environment.roundState] using ih (env.run_round step).1

/-- Shared helper: a round dispatches exactly the names of the currently
non-idle agents. -/
theorem run_round_dispatch (step : RoleStep) (env : Environment) :
    (env.run_round step).2 = env.nonIdleNames := rfl

/-- Shared helper: entry `i` of the trace is the non-idle name list of the
state in which round `i` started. -/
theorem run_trace_getElem (step : RoleStep) (k : Nat) (env : Environment) (i : Nat)
    (h : i < k) :
    (Environment.run step k env).2[i]?
      = some (Environment.nonIdleNames ((Environment.roundState step)^[i] env)) := by
  induction k generalizing env i with
  | zero => exact absurd h (Nat.not_lt_zero i)
  | succ n ih =>
    cases i with
    | zero => simp [Environment.run, run_round_dispatch]
    | succ j =>
      have hj : j < n := Nat.lt_of_succ_lt_succ h
      have := ih (env.run_round step).1 j hj
      rw [Function.iterate_succ_apply]
      simpa [Environment.run, Environment.roundState] using this

/-- Shared helper: the agent list after a round, position by position: idle
agents are untouched, non-idle agents are replaced by the result of their
`run`. -/
theorem run_round_roles_getElem (step : RoleStep) (env : Environment) (i : Nat) :
    (Environment.roundState step env).roles[i]?
      = (env.roles[i]?).map (fun r => if r.is_idle then r else step r) := by
  simp [Environment.roundState, Environment.run_round, List.getElem?_map]

/-- C4: `run k` performs exactly `k` rounds; round `i` dispatches exactly the
agents that are non-idle in the state round `i` starts from, and that state is
the completion of the previous round (the barrier); within a round, idle
agents are untouched and each non-idle agent's `run` is applied; an all-idle
round does no work but still counts toward `k`. -/
theorem run_rounds_spec (step : RoleStep) (k : Nat) (env : Environment) :
    ((Environment.run step k env).2.length = k)
    ∧ ((Environment.run step k env).1 = (Environment.roundState step)^[k] env)
    ∧ (∀ i : Nat, i < k → (Environment.run step k env).2[i]?
        = some (Environment.nonIdleNames ((Environment.roundState step)^[i] env)))
    ∧ (∀ e : Environment, (e.run_round step).2 = e.nonIdleNames)
    ∧ (∀ e : Environment, ∀ j : Nat, ∀ r : Role, e.roles[j]? = some r →
        r.is_idle = true → (Environment.roundState step e).roles[j]? = some r)
    ∧ (∀ e : Environment, ∀ j : Nat, ∀ r : Role, e.roles[j]? = some r →
        r.is_idle = false → (Environment.roundState step e).roles[j]? = some (step r))
    ∧ (∀ e : Environment, e.roles.all (fun r => r.is_idle) = true →
        Environment.roundState step e = e) := by
  refine ⟨run_trace_length step k env, run_state_iterate step k env,
    fun i h => run_trace_getElem step k env i h, fun e => run_round_dispatch step e,
    ?_, ?_, ?_⟩
  · intro e j r hj hr
    rw [run_round_roles_getElem, hj]
    simp [hr]
  · intro e j r hj hr
    rw [run_round_roles_getElem, hj]
    simp [hr]
  · intro e he
    have hall := List.all_eq_true.mp he
    have hmap : List.map (fun r => if r.is_idle then r else step r) e.roles
        = List.map id e.roles := by
      apply List.map_congr_left
      intro r hr
      simp [hall r hr]
    simp [Environment.roundState, Environment.run_round, hmap]

/-- Witness for C4: one round on the one-non-idle-agent environment traces
exactly that agent's name. -/
theorem run_rounds_spec_witness :
    (Environment.run (fun r => r) 1 envAlice).2[0]?
      = some (Environment.nonIdleNames
          ((Environment.roundState (fun r => r))^[0] envAlice)) :=
  (run_rounds_spec (fun r => r) 1 envAlice).2.2.1 0 (by decide)

/-- A write capability returning `7`, used by the dispatch fixtures. -/
def cap7 : ApiFunc := fun _ _ _ => Except.ok 7

/-- A one-entry write registry holding `cap7` under the name `"ping"`. -/
def wregPing : ApiRegistry := [("ping", cap7)]

/-- The structured descriptor naming `"ping"` with no arguments. -/
def dPing : EnvAPIAbstract := { api_name := "ping", args := [], kwargs := [] }

/-- C8: dispatching a capability by a name missing from the requested kind's
registry fails with `UnknownCapabilityError` (for both the read and the write
surface, by plain name and by descriptor), while a registered capability's
error — and its success value — pass through unchanged. -/
theorem api_dispatch_error_spec (rreg wreg : ApiRegistry) (sink : Sink)
    (env : Environment) (s : String) (d : EnvAPIAbstract) (f : ApiFunc) (e : EnvError)
    (v : Value) :
    (List.lookup s rreg = none →
      ExtEnv.read_from_api rreg env (ReadAction.opName s)
        = Except.error (EnvError.unknownCapability s))
    ∧ (List.lookup d.api_name rreg = none →
      ExtEnv.read_from_api rreg env (ReadAction.api d)
        = Except.error (EnvError.unknownCapability d.api_name))
    ∧ (List.lookup d.api_name wreg = none →
      ExtEnv.write_thru_api wreg sink env (WriteAction.api d)
        = Except.error (EnvError.unknownCapability d.api_name))
    ∧ (List.lookup s rreg = some f → f env [] [] = Except.error e →
      ExtEnv.read_from_api rreg env (ReadAction.opName s) = Except.error e)
    ∧ (List.lookup d.api_name rreg = some f → f env d.args d.kwargs = Except.error e →
      ExtEnv.read_from_api rreg env (ReadAction.api d) = Except.error e)
    ∧ (List.lookup d.api_name wreg = some f → f env d.args d.kwargs = Except.error e →
      ExtEnv.write_thru_api wreg sink env (WriteAction.api d) = Except.error e)
    ∧ (List.lookup s rreg = some f → f env [] [] = Except.ok v →
      ExtEnv.read_from_api rreg env (ReadAction.opName s) = Except.ok v) := by
  refine ⟨?_, ?_, ?_, ?_, ?_, ?_, ?_⟩
  · intro h
    simp [ExtEnv.read_from_api, registryGet, h, Bind.bind, Except.bind]
  · intro h
    simp [ExtEnv.read_from_api, registryGet, h, Bind.bind, Except.bind]
  · intro h
    simp [ExtEnv.write_thru_api, registryGet, h, Bind.bind, Except.bind]
  · intro h hf
    simp [ExtEnv.read_from_api, registryGet, ExtEnv.check_api_exist, h, hf, Bind.bind, Except.bind]
  · intro h hf
    simp [ExtEnv.read_from_api, registryGet, ExtEnv.check_api_exist, h, hf, Bind.bind, Except.bind]
  · intro h hf
    simp [ExtEnv.write_thru_api, registryGet, ExtEnv.check_api_exist, h, hf, Bind.bind, Except.bind, Functor.map, Except.map, Pure.pure, Except.pure]
  · intro h hf
    simp [ExtEnv.read_from_api, registryGet, ExtEnv.check_api_exist, h, hf, Bind.bind, Except.bind]

/-- Witness for C8: an empty read registry rejects `"nope"` with
`UnknownCapabilityError`. -/
theorem api_dispatch_error_spec_witness :
    ExtEnv.read_from_api [] envEmpty (ReadAction.opName "nope")
      = Except.error (EnvError.unknownCapability "nope") :=
  (api_dispatch_error_spec [] [] okSink envEmpty "nope" dPing cap7
    (EnvError.apiFailure "boom") 0).1 rfl

/-- C9 counterexample: `"ping"` is registered as a write capability returning
`7`, yet `write_thru_api` called with the plain name `"ping"` returns `None`
without dispatching it — the source body has no branch for a string. -/
theorem write_thru_api_plain_name_counterexample :
    ExtEnv.write_thru_api wregPing okSink envEmpty (WriteAction.opName "ping")
      = Except.ok (none, envEmpty)
    ∧ cap7 envEmpty [] [] = Except.ok 7
    ∧ (none : Option Value) ≠ some 7 := by
  refine ⟨rfl, rfl, ?_⟩
  intro h
  exact Option.noConfusion h

/-- C9 (amended): `write_thru_api` with a raw `Message` routes it via
`publish_message` and never consults the registry (the result is the same for
every registry); with a structured descriptor it dispatches the named write
capability and returns its result; but a plain operation name is not
dispatched: it returns `None` with the environment untouched. -/
theorem write_thru_api_dispatch_spec (wregA wregB : ApiRegistry) (sink : Sink)
    (env : Environment) (m : Message) (d : EnvAPIAbstract) (f : ApiFunc) (v : Value)
    (s : String) :
    (ExtEnv.write_thru_api wregA sink env (WriteAction.msg m)
      = Except.ok (none, (Environment.publish_message sink env m true).2))
    ∧ (ExtEnv.write_thru_api wregA sink env (WriteAction.msg m)
      = ExtEnv.write_thru_api wregB sink env (WriteAction.msg m))
    ∧ (List.lookup d.api_name wregA = some f → f env d.args d.kwargs = Except.ok v →
      ExtEnv.write_thru_api wregA sink env (WriteAction.api d) = Except.ok (some v, env))
    ∧ (ExtEnv.write_thru_api wregA sink env (WriteAction.opName s)
      = Except.ok (none, env)) := by
  refine ⟨rfl, rfl, ?_, rfl⟩
  intro h hf
  simp [ExtEnv.write_thru_api, registryGet, ExtEnv.check_api_exist, h, hf, Bind.bind, Except.bind, Functor.map, Except.map, Pure.pure, Except.pure]

/-- Witness for C9 (amended): the descriptor branch dispatches `cap7` and
returns its result `7`. -/
theorem write_thru_api_dispatch_spec_witness :
    ExtEnv.write_thru_api wregPing okSink envEmpty (WriteAction.api dPing)
      = Except.ok (some 7, envEmpty) :=
  (write_thru_api_dispatch_spec wregPing wregPing okSink envEmpty msgHello dPing cap7 7
    "ping").2.2.1 rfl rfl
